import Mathlib

/-!
# Tokenization & Ownership Ledger — shallow embedding

A shallow embedding of `contracts/assetsup/src/tokenization.rs` (and the
storage-writing part of `audit.rs`).  The Soroban persistent key-value store
is modelled as a record of explicit maps, one per `TokenDataKey` variant
(plus the audit log of `audit.rs`, whose `BytesN<32>` key is an injective
image of the `u64` asset id, so we key it by the asset id directly).
Addresses and `u64` values are modelled as `Nat`, `i128` as `Int`
(no claim below concerns integer overflow); Rust's `i128` division
truncates toward zero, which is `Int.tdiv`.  Each mutating operation takes
the current store (and the ledger timestamp where the code reads it) and
returns the Rust function's `Result` together with the store as left by the
function: an early `return Err(..)` leaves the store exactly as it was at
that point, so writes performed before a later failure are visible, as in
the source.  Events are fire-and-forget and not part of the store.
-/

namespace Assetsup

/-- Addresses (`soroban_sdk::Address`), abstracted to `Nat`. -/
abbrev Addr := Nat

/-- The error enum of `error.rs`, restricted to the variants used by
`tokenization.rs`. -/
inductive Error where
  | InvalidTokenSupply
  | AssetAlreadyTokenized
  | AssetNotTokenized
  | Unauthorized
  | HolderNotFound
  | InsufficientBalance
  | TokensAreLocked
  | InvalidValuation
  deriving DecidableEq, Repr

/-- `types.rs::TokenMetadata` is not under `src/`; its contents are opaque to
`tokenization.rs` (stored and returned untouched), so we model it from the
test-suite constructor arguments as a name/description pair. -/
structure TokenMetadata where
  name : String
  description : String
  deriving DecidableEq, Repr

/-- `types.rs::TokenizedAsset`, with exactly the fields `tokenization.rs`
reads and writes. -/
structure TokenizedAsset where
  asset_id : Nat
  total_supply : Int
  symbol : String
  decimals : Nat
  locked_tokens : Int
  tokenizer : Addr
  valuation : Int
  token_holders_count : Nat
  tokens_in_circulation : Int
  min_voting_threshold : Int
  revenue_sharing_enabled : Bool
  tokenization_timestamp : Nat
  detokenize_threshold : Int
  deriving DecidableEq, Repr

/-- `types.rs::OwnershipRecord`, with exactly the fields `tokenization.rs`
reads and writes. -/
structure OwnershipRecord where
  owner : Addr
  balance : Int
  acquisition_timestamp : Nat
  average_purchase_price : Int
  voting_power : Int
  dividend_entitlement : Int
  unclaimed_dividends : Int
  ownership_percentage : Int
  deriving DecidableEq, Repr

/-- One entry of the audit log (`audit.rs::AuditEntry`). -/
structure AuditEntry where
  timestamp : Nat
  action : String
  actor : Addr
  details : String
  deriving DecidableEq, Repr

/-- Pointwise update of a map, standing for `store.set` / `store.remove`
(with `none` as the removed value). -/
def upd {α β : Type} [DecidableEq α] (f : α → β) (k : α) (v : β) : α → β :=
  fun x => if x = k then v else f x

/-- The persistent store, one explicit map per `TokenDataKey` variant.
`none` means the key is absent (`store.has` is false). -/
structure Store where
  tokenizedAsset : Nat → Option TokenizedAsset
  tokenMetadata : Nat → Option TokenMetadata
  tokenHolder : Nat × Addr → Option OwnershipRecord
  tokenHoldersList : Nat → Option (List Addr)
  tokenLockedUntil : Nat × Addr → Option Nat
  auditLog : Nat → List AuditEntry

/-- The store with no keys at all. -/
def Store.empty : Store :=
  { tokenizedAsset := fun _ => none
    tokenMetadata := fun _ => none
    tokenHolder := fun _ => none
    tokenHoldersList := fun _ => none
    tokenLockedUntil := fun _ => none
    auditLog := fun _ => [] }

/-- `audit.rs::append_audit_log`: pushes one entry onto the asset's log. -/
def append_audit_log (s : Store) (now : Nat) (asset_id : Nat) (action : String)
    (actor : Addr) (details : String) : Store :=
  { s with auditLog := (upd s.auditLog asset_id
      (s.auditLog asset_id ++ [{ timestamp := now, action, actor, details }])) }

/-- `tokenization.rs::tokenize_asset`. -/
def tokenize_asset (s : Store) (now : Nat) (asset_id : Nat) (symbol : String)
    (total_supply : Int) (decimals : Nat) (min_voting_threshold : Int)
    (tokenizer : Addr) (metadata : TokenMetadata) :
    Except Error TokenizedAsset × Store :=
  if total_supply ≤ 0 then (.error .InvalidTokenSupply, s)
  else if (s.tokenizedAsset asset_id).isSome then (.error .AssetAlreadyTokenized, s)
  else
    let tokenized_asset : TokenizedAsset :=
      { asset_id, total_supply, symbol, decimals, locked_tokens := 0, tokenizer,
        valuation := total_supply, token_holders_count := 1,
        tokens_in_circulation := total_supply, min_voting_threshold,
        revenue_sharing_enabled := false, tokenization_timestamp := now,
        detokenize_threshold := 50 }
    let s := { s with tokenizedAsset := upd s.tokenizedAsset asset_id (some tokenized_asset) }
    let s := { s with tokenMetadata := upd s.tokenMetadata asset_id (some metadata) }
    let ownership : OwnershipRecord :=
      { owner := tokenizer, balance := total_supply, acquisition_timestamp := now,
        average_purchase_price := 1, voting_power := total_supply,
        dividend_entitlement := total_supply, unclaimed_dividends := 0,
        ownership_percentage := 10000 }
    let s := { s with tokenHolder := upd s.tokenHolder (asset_id, tokenizer) (some ownership) }
    let s := { s with tokenHoldersList := upd s.tokenHoldersList asset_id (some [tokenizer]) }
    let s := append_audit_log s now asset_id "ASSET_TOKENIZED" tokenizer
      "Asset tokenized with tokens"
    (.ok tokenized_asset, s)

/-- `tokenization.rs::mint_tokens`. -/
def mint_tokens (s : Store) (now : Nat) (asset_id : Nat) (amount : Int)
    (minter : Addr) : Except Error TokenizedAsset × Store :=
  if amount ≤ 0 then (.error .InvalidTokenSupply, s)
  else
    match s.tokenizedAsset asset_id with
    | none => (.error .AssetNotTokenized, s)
    | some ta =>
      if ta.tokenizer ≠ minter then (.error .Unauthorized, s)
      else
        let ta := { ta with total_supply := ta.total_supply + amount,
                            tokens_in_circulation := ta.tokens_in_circulation + amount }
        match s.tokenHolder (asset_id, minter) with
        | none => (.error .HolderNotFound, s)
        | some own =>
          let b := own.balance + amount
          let own := { own with balance := b, voting_power := b,
                                dividend_entitlement := b,
                                ownership_percentage := (b * 10000).tdiv ta.total_supply }
          let s := { s with tokenHolder := upd s.tokenHolder (asset_id, minter) (some own) }
          let s := { s with tokenizedAsset := upd s.tokenizedAsset asset_id (some ta) }
          let s := append_audit_log s now asset_id "TOKENS_MINTED" minter "Tokens minted"
          (.ok ta, s)

/-- `tokenization.rs::burn_tokens`.  Note the source computes the new
`ownership_percentage` before decrementing `total_supply`, so the divisor is
the pre-burn supply. -/
def burn_tokens (s : Store) (now : Nat) (asset_id : Nat) (amount : Int)
    (burner : Addr) : Except Error TokenizedAsset × Store :=
  if amount ≤ 0 then (.error .InvalidTokenSupply, s)
  else
    match s.tokenizedAsset asset_id with
    | none => (.error .AssetNotTokenized, s)
    | some ta =>
      if ta.tokenizer ≠ burner then (.error .Unauthorized, s)
      else
        match s.tokenHolder (asset_id, burner) with
        | none => (.error .HolderNotFound, s)
        | some own =>
          if own.balance < amount then (.error .InsufficientBalance, s)
          else
            let b := own.balance - amount
            let own := { own with balance := b, voting_power := b,
                                  dividend_entitlement := b,
                                  ownership_percentage := (b * 10000).tdiv ta.total_supply }
            let ta := { ta with total_supply := ta.total_supply - amount,
                                tokens_in_circulation := ta.tokens_in_circulation - amount }
            let s := { s with tokenHolder := upd s.tokenHolder (asset_id, burner) (some own) }
            let s := { s with tokenizedAsset := upd s.tokenizedAsset asset_id (some ta) }
            let s := append_audit_log s now asset_id "TOKENS_BURNED" burner "Tokens burned"
            (.ok ta, s)

/-- `tokenization.rs::transfer_tokens`.  The holders list is read (and can
fail `AssetNotTokenized`) only after both ownership records have been
written, exactly as in the source. -/
def transfer_tokens (s : Store) (now : Nat) (asset_id : Nat) (from_ to_ : Addr)
    (amount : Int) : Except Error Unit × Store :=
  if amount ≤ 0 then (.error .InvalidTokenSupply, s)
  else
    match s.tokenizedAsset asset_id with
    | none => (.error .AssetNotTokenized, s)
    | some ta =>
      let locked : Bool :=
        match s.tokenLockedUntil (asset_id, from_) with
        | some lock_time => now < lock_time
        | none => false
      if locked then (.error .TokensAreLocked, s)
      else
        match s.tokenHolder (asset_id, from_) with
        | none => (.error .HolderNotFound, s)
        | some from_ownership =>
          if from_ownership.balance < amount then (.error .InsufficientBalance, s)
          else
            let to_ownership : OwnershipRecord :=
              match s.tokenHolder (asset_id, to_) with
              | some ownership => ownership
              | none =>
                { owner := to_, balance := 0, acquisition_timestamp := now,
                  average_purchase_price := 1, voting_power := 0,
                  dividend_entitlement := 0, unclaimed_dividends := 0,
                  ownership_percentage := 0 }
            let fb := from_ownership.balance - amount
            let from_ownership :=
              { from_ownership with
                balance := fb, voting_power := fb, dividend_entitlement := fb,
                ownership_percentage := (fb * 10000).tdiv ta.total_supply }
            let tb := to_ownership.balance + amount
            let to_ownership :=
              { to_ownership with
                balance := tb, voting_power := tb, dividend_entitlement := tb,
                ownership_percentage := (tb * 10000).tdiv ta.total_supply }
            let s := { s with tokenHolder := upd s.tokenHolder (asset_id, from_) (some from_ownership) }
            let s := { s with tokenHolder := upd s.tokenHolder (asset_id, to_) (some to_ownership) }
            match s.tokenHoldersList asset_id with
            | none => (.error .AssetNotTokenized, s)
            | some holders =>
              let s :=
                if to_ ∈ holders then s
                else { s with tokenHoldersList := upd s.tokenHoldersList asset_id (some (holders ++ [to_])) }
              let s := append_audit_log s now asset_id "TOKENS_TRANSFERRED" from_
                "Tokens transferred to recipient"
              (.ok (), s)

/-- `tokenization.rs::get_token_balance`. -/
def get_token_balance (s : Store) (asset_id : Nat) (holder : Addr) :
    Except Error Int :=
  match s.tokenHolder (asset_id, holder) with
  | some ownership => .ok ownership.balance
  | none => .ok 0

/-- `tokenization.rs::get_token_holders`. -/
def get_token_holders (s : Store) (asset_id : Nat) : Except Error (List Addr) :=
  match s.tokenHoldersList asset_id with
  | some holders => .ok holders
  | none => .error .AssetNotTokenized

/-- `tokenization.rs::lock_tokens`.  The source fetches the asset record
twice with no store change in between; one fetch has the same semantics. -/
def lock_tokens (s : Store) (asset_id : Nat) (holder : Addr)
    (until_timestamp : Nat) (caller : Addr) : Except Error Unit × Store :=
  match s.tokenizedAsset asset_id with
  | none => (.error .AssetNotTokenized, s)
  | some tokenized_asset =>
    if tokenized_asset.tokenizer ≠ caller then (.error .Unauthorized, s)
    else
      (.ok (), { s with tokenLockedUntil := upd s.tokenLockedUntil (asset_id, holder) (some until_timestamp) })

/-- `tokenization.rs::unlock_tokens`. -/
def unlock_tokens (s : Store) (asset_id : Nat) (holder : Addr) :
    Except Error Unit × Store :=
  match s.tokenizedAsset asset_id with
  | none => (.error .AssetNotTokenized, s)
  | some _ =>
    match s.tokenLockedUntil (asset_id, holder) with
    | some _ =>
      (.ok (), { s with tokenLockedUntil := upd s.tokenLockedUntil (asset_id, holder) none })
    | none => (.ok (), s)

/-- `tokenization.rs::is_tokens_locked`. -/
def is_tokens_locked (s : Store) (now : Nat) (asset_id : Nat) (holder : Addr) :
    Bool :=
  match s.tokenLockedUntil (asset_id, holder) with
  | some lock_until => now < lock_until
  | none => false

/-- `tokenization.rs::calculate_ownership_percentage`. -/
def calculate_ownership_percentage (s : Store) (asset_id : Nat) (holder : Addr) :
    Except Error Int :=
  match s.tokenizedAsset asset_id with
  | none => .error .AssetNotTokenized
  | some tokenized_asset =>
    match s.tokenHolder (asset_id, holder) with
    | none => .error .HolderNotFound
    | some ownership =>
      if tokenized_asset.total_supply ≤ 0 then .ok 0
      else .ok ((ownership.balance * 10000).tdiv tokenized_asset.total_supply)

/-- `tokenization.rs::get_tokenized_asset`. -/
def get_tokenized_asset (s : Store) (asset_id : Nat) :
    Except Error TokenizedAsset :=
  match s.tokenizedAsset asset_id with
  | some ta => .ok ta
  | none => .error .AssetNotTokenized

/-- `tokenization.rs::update_valuation`. -/
def update_valuation (s : Store) (asset_id : Nat) (new_valuation : Int) :
    Except Error Unit × Store :=
  if new_valuation ≤ 0 then (.error .InvalidValuation, s)
  else
    match s.tokenizedAsset asset_id with
    | none => (.error .AssetNotTokenized, s)
    | some tokenized_asset =>
      (.ok (), { s with tokenizedAsset := (upd s.tokenizedAsset asset_id
        (some { tokenized_asset with valuation := new_valuation })) })

/-!
## Derived record builders

Abbreviations for the ownership-record updates performed by
`mint_tokens`, `burn_tokens` and `transfer_tokens`; used to state the
success-shape lemmas below.  `debit`/`credit` recompute `voting_power`,
`dividend_entitlement` and `ownership_percentage` from the new balance and
the given divisor, exactly as the source does.
-/

/-- The record written for a holder whose balance decreases by `amt`, with
`ownership_percentage` recomputed against `supply`. -/
def debit (r : OwnershipRecord) (supply amt : Int) : OwnershipRecord :=
  { r with balance := r.balance - amt, voting_power := r.balance - amt,
           dividend_entitlement := r.balance - amt,
           ownership_percentage := ((r.balance - amt) * 10000).tdiv supply }

/-- The record written for a holder whose balance increases by `amt`, with
`ownership_percentage` recomputed against `supply`. -/
def credit (r : OwnershipRecord) (supply amt : Int) : OwnershipRecord :=
  { r with balance := r.balance + amt, voting_power := r.balance + amt,
           dividend_entitlement := r.balance + amt,
           ownership_percentage := ((r.balance + amt) * 10000).tdiv supply }

/-- The zero-balance record `transfer_tokens` synthesizes for a first-time
recipient. -/
def freshOwnership (owner : Addr) (now : Nat) : OwnershipRecord :=
  { owner, balance := 0, acquisition_timestamp := now,
    average_purchase_price := 1, voting_power := 0, dividend_entitlement := 0,
    unclaimed_dividends := 0, ownership_percentage := 0 }

/-!
## Sum of balances and the supply-conservation invariant
-/

/-- The balance recorded for holder `h` of asset `a` (0 if no record). -/
def balOf (F : Nat × Addr → Option OwnershipRecord) (a : Nat) (h : Addr) : Int :=
  ((F (a, h)).map OwnershipRecord.balance).getD 0

/-- Sum of the balances of the holders in `L` for asset `a`. -/
def sumBal (F : Nat × Addr → Option OwnershipRecord) (a : Nat)
    (L : List Addr) : Int :=
  (L.map (balOf F a)).sum


/-- The per-asset ledger invariant: the asset record and its holders list
exist, the list has no duplicates and enumerates exactly the holders with a
stored record, balances are nonnegative, and the balances of the listed
holders sum to both `tokens_in_circulation` and `total_supply`. -/
def SupplyInv (s : Store) (a : Nat) : Prop :=
  ∃ ta L, s.tokenizedAsset a = some ta ∧ s.tokenHoldersList a = some L ∧
    L.Nodup ∧ (∀ h, (s.tokenHolder (a, h)).isSome ↔ h ∈ L) ∧
    (∀ h r, s.tokenHolder (a, h) = some r → 0 ≤ r.balance) ∧
    sumBal s.tokenHolder a L = ta.tokens_in_circulation ∧
    sumBal s.tokenHolder a L = ta.total_supply


/-!
## Operation sequences on one asset
-/

/-- One balance-moving ledger operation on a fixed asset. -/
inductive TokenOp where
  | mint (amount : Int) (minter : Addr)
  | burn (amount : Int) (burner : Addr)
  | transfer (sender recipient : Addr) (amount : Int)

/-- Apply one operation at ledger time `now` to asset `a`. -/
def TokenOp.apply (s : Store) (now a : Nat) : TokenOp → Except Error Unit × Store
  | .mint amt m =>
    let p := mint_tokens s now a amt m
    (p.1.map fun _ => (), p.2)
  | .burn amt b =>
    let p := burn_tokens s now a amt b
    (p.1.map fun _ => (), p.2)
  | .transfer f t amt => transfer_tokens s now a f t amt

/-- An operation whose sender and recipient are distinct (trivially true for
mint and burn). -/
def TokenOp.distinctParties : TokenOp → Prop
  | .transfer f t _ => f ≠ t
  | _ => True

/-- Run a timestamped sequence of operations, stopping (with `none`) at the
first failure. -/
def runOps (a : Nat) : Store → List (Nat × TokenOp) → Option Store
  | s, [] => some s
  | s, (now, op) :: rest =>
    match TokenOp.apply s now a op with
    | (.ok _, s') => runOps a s' rest
    | (.error _, _) => none


/-!
## Concrete scenario stores
-/

/-- Metadata used by the concrete scenarios. -/
def metaEx : TokenMetadata := { name := "n", description := "d" }

/-- The asset record created by tokenizing asset 1 with supply 100,
tokenizer 7, at time 0. -/
def taEx : TokenizedAsset :=
  { asset_id := 1, total_supply := 100, symbol := "TOK", decimals := 6,
    locked_tokens := 0, tokenizer := 7, valuation := 100,
    token_holders_count := 1, tokens_in_circulation := 100,
    min_voting_threshold := 1, revenue_sharing_enabled := false,
    tokenization_timestamp := 0, detokenize_threshold := 50 }

/-- The tokenizer's initial ownership record in that scenario. -/
def ownEx : OwnershipRecord :=
  { owner := 7, balance := 100, acquisition_timestamp := 0,
    average_purchase_price := 1, voting_power := 100,
    dividend_entitlement := 100, unclaimed_dividends := 0,
    ownership_percentage := 10000 }

/-- Store after `tokenize_asset` of asset 1 (supply 100, tokenizer 7) on the
empty store. -/
def sTok : Store := (tokenize_asset Store.empty 0 1 "TOK" 100 6 1 7 metaEx).2

/-- `sTok` after the tokenizer locks holder 7 until time 10. -/
def sLock : Store := (lock_tokens sTok 1 7 10 7).2

/-- A store holding an asset record and a holder record but no holders
list: unreachable through the operations (`tokenize_asset` always writes the
list), used to exhibit the transfer write-then-fail path. -/
def sNoList : Store :=
  { Store.empty with
    tokenizedAsset := (upd Store.empty.tokenizedAsset 1 (some taEx)),
    tokenHolder := (upd Store.empty.tokenHolder (1, 7) (some ownEx)) }

theorem upd_same {α β : Type} [DecidableEq α] (f : α → β) (k : α) (v : β) :
    upd f k v k = v := by
  simp [upd]

theorem upd_ne {α β : Type} [DecidableEq α] (f : α → β) {k x : α} (v : β)
    (h : x ≠ k) : upd f k v x = f x := by
  simp [upd, h]

/-- Success shape of `mint_tokens`: what must have held before the call and
exactly which keys the call wrote. -/
theorem mint_tokens_ok {s s' : Store} {now a : Nat} {amt : Int} {m : Addr}
    {ta' : TokenizedAsset} (h : mint_tokens s now a amt m = (.ok ta', s')) :
    ∃ ta own, s.tokenizedAsset a = some ta ∧ ta.tokenizer = m ∧
      s.tokenHolder (a, m) = some own ∧ 0 < amt ∧
      ta' = { ta with total_supply := ta.total_supply + amt,
                      tokens_in_circulation := ta.tokens_in_circulation + amt } ∧
      s'.tokenizedAsset = upd s.tokenizedAsset a (some ta') ∧
      s'.tokenHolder = upd s.tokenHolder (a, m) (some (credit own (ta.total_supply + amt) amt)) ∧
      s'.tokenHoldersList = s.tokenHoldersList ∧
      s'.tokenMetadata = s.tokenMetadata ∧
      s'.tokenLockedUntil = s.tokenLockedUntil := by
  unfold mint_tokens at h
  split at h
  · simp at h
  · split at h
    · simp at h
    · next ta hta =>
      split at h
      · simp at h
      · next hauth =>
        split at h
        · simp at h
        · next own hown =>
          simp only [Prod.mk.injEq, Except.ok.injEq] at h
          obtain ⟨hta', hs'⟩ := h
          refine ⟨ta, own, hta, not_ne_iff.mp hauth, hown, by omega, hta'.symm, ?_, ?_, ?_, ?_, ?_⟩ <;>
            simp [← hs', ← hta', append_audit_log, credit]

/-- Success shape of `burn_tokens`.  The divisor in the written
`ownership_percentage` is the pre-burn `total_supply`. -/
theorem burn_tokens_ok {s s' : Store} {now a : Nat} {amt : Int} {b : Addr}
    {ta' : TokenizedAsset} (h : burn_tokens s now a amt b = (.ok ta', s')) :
    ∃ ta own, s.tokenizedAsset a = some ta ∧ ta.tokenizer = b ∧
      s.tokenHolder (a, b) = some own ∧ 0 < amt ∧ amt ≤ own.balance ∧
      ta' = { ta with total_supply := ta.total_supply - amt,
                      tokens_in_circulation := ta.tokens_in_circulation - amt } ∧
      s'.tokenizedAsset = upd s.tokenizedAsset a (some ta') ∧
      s'.tokenHolder = upd s.tokenHolder (a, b) (some (debit own ta.total_supply amt)) ∧
      s'.tokenHoldersList = s.tokenHoldersList ∧
      s'.tokenMetadata = s.tokenMetadata ∧
      s'.tokenLockedUntil = s.tokenLockedUntil := by
  unfold burn_tokens at h
  split at h
  · simp at h
  · split at h
    · simp at h
    · next ta hta =>
      split at h
      · simp at h
      · next hauth =>
        split at h
        · simp at h
        · next own hown =>
          split at h
          · simp at h
          · next hbal =>
            simp only [Prod.mk.injEq, Except.ok.injEq] at h
            obtain ⟨hta', hs'⟩ := h
            refine ⟨ta, own, hta, not_ne_iff.mp hauth, hown, by omega, by omega,
              hta'.symm, ?_, ?_, ?_, ?_, ?_⟩ <;>
              simp [← hs', ← hta', append_audit_log, debit]

/-- Success shape of `tokenize_asset`. -/
theorem tokenize_asset_ok {s s' : Store} {now a : Nat} {sym : String}
    {sup : Int} {dec : Nat} {thr : Int} {tk : Addr} {m : TokenMetadata}
    {ta' : TokenizedAsset}
    (h : tokenize_asset s now a sym sup dec thr tk m = (.ok ta', s')) :
    0 < sup ∧ s.tokenizedAsset a = none ∧
      ta' = { asset_id := a, total_supply := sup, symbol := sym, decimals := dec,
              locked_tokens := 0, tokenizer := tk, valuation := sup,
              token_holders_count := 1, tokens_in_circulation := sup,
              min_voting_threshold := thr, revenue_sharing_enabled := false,
              tokenization_timestamp := now, detokenize_threshold := 50 } ∧
      s'.tokenizedAsset = upd s.tokenizedAsset a (some ta') ∧
      s'.tokenMetadata = upd s.tokenMetadata a (some m) ∧
      s'.tokenHolder = upd s.tokenHolder (a, tk)
        (some { owner := tk, balance := sup, acquisition_timestamp := now,
                average_purchase_price := 1, voting_power := sup,
                dividend_entitlement := sup, unclaimed_dividends := 0,
                ownership_percentage := 10000 }) ∧
      s'.tokenHoldersList = upd s.tokenHoldersList a (some [tk]) ∧
      s'.tokenLockedUntil = s.tokenLockedUntil := by
  unfold tokenize_asset at h
  split at h
  · simp at h
  · split at h
    · simp at h
    · next hnone =>
      simp only [Prod.mk.injEq, Except.ok.injEq] at h
      obtain ⟨hta', hs'⟩ := h
      refine ⟨by omega, Option.not_isSome_iff_eq_none.mp hnone, hta'.symm,
        ?_, ?_, ?_, ?_, ?_⟩ <;>
        simp [← hs', ← hta', append_audit_log]

/-- Success shape of `transfer_tokens`: preconditions that must have held in
the pre-state and exactly which keys were written.  The recipient base
record is the stored one, or the synthesized zero record for a first-time
recipient. -/
theorem transfer_tokens_ok {s s' : Store} {now a : Nat} {f t : Addr}
    {amt : Int} {u : Unit}
    (h : transfer_tokens s now a f t amt = (.ok u, s')) :
    ∃ ta fo L, s.tokenizedAsset a = some ta ∧
      s.tokenHolder (a, f) = some fo ∧
      s.tokenHoldersList a = some L ∧
      0 < amt ∧ amt ≤ fo.balance ∧
      (∀ lt, s.tokenLockedUntil (a, f) = some lt → ¬ now < lt) ∧
      s'.tokenizedAsset = s.tokenizedAsset ∧
      s'.tokenMetadata = s.tokenMetadata ∧
      s'.tokenLockedUntil = s.tokenLockedUntil ∧
      s'.tokenHolder =
        upd (upd s.tokenHolder (a, f) (some (debit fo ta.total_supply amt)))
          (a, t)
          (some (credit ((s.tokenHolder (a, t)).getD (freshOwnership t now))
                  ta.total_supply amt)) ∧
      s'.tokenHoldersList =
        (if t ∈ L then s.tokenHoldersList
         else upd s.tokenHoldersList a (some (L ++ [t]))) := by
  unfold transfer_tokens at h
  repeat' (split at h <;> try simp at h)
  all_goals
    subst h
    refine ⟨_, _, _, by assumption, by assumption, by assumption, by omega,
      by omega, ?_, ?_, ?_, ?_, ?_, ?_⟩ <;>
    first
      | (intro lt hlt; simp_all)
      | simp_all [append_audit_log, debit, credit, freshOwnership]

/-- Success shape of `lock_tokens`. -/
theorem lock_tokens_ok {s s' : Store} {a : Nat} {hld : Addr} {t : Nat}
    {c : Addr} {u : Unit} (h : lock_tokens s a hld t c = (.ok u, s')) :
    ∃ ta, s.tokenizedAsset a = some ta ∧ ta.tokenizer = c ∧
      s' = { s with tokenLockedUntil := upd s.tokenLockedUntil (a, hld) (some t) } := by
  unfold lock_tokens at h
  repeat' (split at h <;> try simp at h)
  subst h
  exact ⟨_, by assumption, by simp_all, rfl⟩

/-- `tokenize_asset` leaves the store untouched when it fails. -/
theorem tokenize_asset_error {s s' : Store} {now a : Nat} {sym : String}
    {sup : Int} {dec : Nat} {thr : Int} {tk : Addr} {m : TokenMetadata}
    {e : Error} (h : tokenize_asset s now a sym sup dec thr tk m = (.error e, s')) :
    s' = s := by
  unfold tokenize_asset at h
  repeat' (split at h <;> try simp at h)
  all_goals first | exact h.symm | exact h.2.symm

/-- `mint_tokens` leaves the store untouched when it fails. -/
theorem mint_tokens_error {s s' : Store} {now a : Nat} {amt : Int} {m : Addr}
    {e : Error} (h : mint_tokens s now a amt m = (.error e, s')) : s' = s := by
  unfold mint_tokens at h
  repeat' (split at h <;> try simp at h)
  all_goals first | exact h.symm | exact h.2.symm

/-- `burn_tokens` leaves the store untouched when it fails. -/
theorem burn_tokens_error {s s' : Store} {now a : Nat} {amt : Int} {b : Addr}
    {e : Error} (h : burn_tokens s now a amt b = (.error e, s')) : s' = s := by
  unfold burn_tokens at h
  repeat' (split at h <;> try simp at h)
  all_goals first | exact h.symm | exact h.2.symm

/-- `transfer_tokens` leaves the store untouched when it fails, provided the
asset's holders list is present whenever its asset record is (which
`tokenize_asset` guarantees); without that proviso the list lookup that the
source performs after the two record writes can fail with the records
already written. -/
theorem transfer_tokens_error {s s' : Store} {now a : Nat} {f t : Addr}
    {amt : Int} {e : Error}
    (hwf : (s.tokenizedAsset a).isSome → (s.tokenHoldersList a).isSome)
    (h : transfer_tokens s now a f t amt = (.error e, s')) : s' = s := by
  unfold transfer_tokens at h
  repeat' (split at h <;> try simp at h)
  all_goals first | exact h.symm | exact h.2.symm | simp_all

/-- `lock_tokens` leaves the store untouched when it fails. -/
theorem lock_tokens_error {s s' : Store} {a : Nat} {hld : Addr} {t : Nat}
    {c : Addr} {e : Error} (h : lock_tokens s a hld t c = (.error e, s')) :
    s' = s := by
  unfold lock_tokens at h
  repeat' (split at h <;> try simp at h)
  all_goals first | exact h.symm | exact h.2.symm

/-- `unlock_tokens` leaves the store untouched when it fails. -/
theorem unlock_tokens_error {s s' : Store} {a : Nat} {hld : Addr}
    {e : Error} (h : unlock_tokens s a hld = (.error e, s')) : s' = s := by
  unfold unlock_tokens at h
  repeat' (split at h <;> try simp at h)
  all_goals first | exact h.symm | exact h.2.symm

/-- `update_valuation` leaves the store untouched when it fails. -/
theorem update_valuation_error {s s' : Store} {a : Nat} {v : Int}
    {e : Error} (h : update_valuation s a v = (.error e, s')) : s' = s := by
  unfold update_valuation at h
  repeat' (split at h <;> try simp at h)
  all_goals first | exact h.symm | exact h.2.symm

/-- `mint_tokens` never touches the holders list. -/
theorem mint_tokens_holdersList {s s' : Store} {now a : Nat} {amt : Int}
    {m : Addr} {r : Except Error TokenizedAsset}
    (h : mint_tokens s now a amt m = (r, s')) :
    s'.tokenHoldersList = s.tokenHoldersList := by
  unfold mint_tokens at h
  repeat' (split at h <;> try simp at h)
  all_goals obtain ⟨-, rfl⟩ := h
  all_goals rfl

/-- `burn_tokens` never touches the holders list. -/
theorem burn_tokens_holdersList {s s' : Store} {now a : Nat} {amt : Int}
    {b : Addr} {r : Except Error TokenizedAsset}
    (h : burn_tokens s now a amt b = (r, s')) :
    s'.tokenHoldersList = s.tokenHoldersList := by
  unfold burn_tokens at h
  repeat' (split at h <;> try simp at h)
  all_goals obtain ⟨-, rfl⟩ := h
  all_goals rfl

/-- `lock_tokens` never touches the holders list. -/
theorem lock_tokens_holdersList {s s' : Store} {a : Nat} {hld : Addr}
    {t : Nat} {c : Addr} {r : Except Error Unit}
    (h : lock_tokens s a hld t c = (r, s')) :
    s'.tokenHoldersList = s.tokenHoldersList := by
  unfold lock_tokens at h
  repeat' (split at h <;> try simp at h)
  all_goals obtain ⟨-, rfl⟩ := h
  all_goals rfl

/-- `unlock_tokens` never touches the holders list. -/
theorem unlock_tokens_holdersList {s s' : Store} {a : Nat} {hld : Addr}
    {r : Except Error Unit} (h : unlock_tokens s a hld = (r, s')) :
    s'.tokenHoldersList = s.tokenHoldersList := by
  unfold unlock_tokens at h
  repeat' (split at h <;> try simp at h)
  all_goals obtain ⟨-, rfl⟩ := h
  all_goals rfl

/-- `update_valuation` never touches the holders list. -/
theorem update_valuation_holdersList {s s' : Store} {a : Nat} {v : Int}
    {r : Except Error Unit} (h : update_valuation s a v = (r, s')) :
    s'.tokenHoldersList = s.tokenHoldersList := by
  unfold update_valuation at h
  repeat' (split at h <;> try simp at h)
  all_goals obtain ⟨-, rfl⟩ := h
  all_goals rfl

/-- How `transfer_tokens` can change the holders list: either it leaves it
as it was (any failure, or a recipient already listed), or the recipient was
absent from the asset's list and is appended at the end. -/
theorem transfer_tokens_holdersList {s s' : Store} {now a : Nat} {f t : Addr}
    {amt : Int} {r : Except Error Unit}
    (h : transfer_tokens s now a f t amt = (r, s')) :
    s'.tokenHoldersList = s.tokenHoldersList ∨
    ∃ L, s.tokenHoldersList a = some L ∧ t ∉ L ∧
      s'.tokenHoldersList = upd s.tokenHoldersList a (some (L ++ [t])) := by
  unfold transfer_tokens at h
  repeat' (split at h <;> try simp at h)
  all_goals obtain ⟨-, rfl⟩ := h
  all_goals
    first
      | (left; rfl)
      | (right; exact ⟨_, by assumption, by assumption, rfl⟩)

theorem balOf_upd_same (F : Nat × Addr → Option OwnershipRecord) (a : Nat)
    (x : Addr) (r : OwnershipRecord) :
    balOf (upd F (a, x) (some r)) a x = r.balance := by
  simp [balOf, upd]

theorem balOf_upd_ne (F : Nat × Addr → Option OwnershipRecord) (a : Nat)
    {x y : Addr} (v : Option OwnershipRecord) (hne : y ≠ x) :
    balOf (upd F (a, x) v) a y = balOf F a y := by
  simp [balOf, upd, hne]

theorem sumBal_upd_not_mem (F : Nat × Addr → Option OwnershipRecord)
    (a : Nat) {x : Addr} (v : Option OwnershipRecord) {L : List Addr}
    (hx : x ∉ L) : sumBal (upd F (a, x) v) a L = sumBal F a L := by
  induction L with
  | nil => rfl
  | cons y tl ih =>
    simp only [List.mem_cons, not_or] at hx
    simp only [sumBal, List.map_cons, List.sum_cons] at *
    rw [balOf_upd_ne F a v (fun he => hx.1 he.symm), ih hx.2]

theorem sumBal_upd_mem (F : Nat × Addr → Option OwnershipRecord) (a : Nat)
    {x : Addr} (r : OwnershipRecord) {L : List Addr} (hnd : L.Nodup)
    (hx : x ∈ L) :
    sumBal (upd F (a, x) (some r)) a L = sumBal F a L - balOf F a x + r.balance := by
  induction L with
  | nil => simp at hx
  | cons y tl ih =>
    rcases List.mem_cons.mp hx with he | htl
    · subst he
      have hnotin : x ∉ tl := (List.nodup_cons.mp hnd).1
      have h2 := sumBal_upd_not_mem F a (some r) hnotin
      simp only [sumBal, List.map_cons, List.sum_cons] at h2 ⊢
      rw [balOf_upd_same, h2]
      ring
    · have hyx : y ≠ x := fun he => ((List.nodup_cons.mp hnd).1 (he ▸ htl))
      have h2 := ih (List.nodup_cons.mp hnd).2 htl
      simp only [sumBal, List.map_cons, List.sum_cons] at h2 ⊢
      rw [balOf_upd_ne F a _ hyx, h2]
      ring

theorem sumBal_append (F : Nat × Addr → Option OwnershipRecord) (a : Nat)
    (L L' : List Addr) :
    sumBal F a (L ++ L') = sumBal F a L + sumBal F a L' := by
  simp [sumBal]

/-- A successful `tokenize_asset` on an asset with no pre-existing holder
records establishes the invariant. -/
theorem SupplyInv.of_tokenize {s s' : Store} {now a : Nat} {sym : String}
    {sup : Int} {dec : Nat} {thr : Int} {tk : Addr} {m : TokenMetadata}
    {ta' : TokenizedAsset}
    (hfresh : ∀ h, s.tokenHolder (a, h) = none)
    (h : tokenize_asset s now a sym sup dec thr tk m = (.ok ta', s')) :
    SupplyInv s' a := by
  obtain ⟨hsup, -, hta', hA, -, hH, hL, -⟩ := tokenize_asset_ok h
  refine ⟨ta', [tk], ?_, ?_, by simp, ?_, ?_, ?_, ?_⟩
  · rw [hA, upd_same]
  · rw [hL, upd_same]
  · intro x
    rw [hH]
    by_cases hx : x = tk
    · subst hx; simp [upd_same]
    · rw [upd_ne _ _ (by simp [hx])]
      simp [hfresh x, hx]
  · intro x r hr
    rw [hH] at hr
    by_cases hx : x = tk
    · subst hx
      rw [upd_same] at hr
      cases hr
      simpa [hta'] using le_of_lt hsup
    · rw [upd_ne _ _ (by simp [hx]), hfresh x] at hr
      cases hr
  · rw [hH]
    simp [sumBal, balOf, upd_same, hta']
  · rw [hH]
    simp [sumBal, balOf, upd_same, hta']

/-- A successful `mint_tokens` preserves the invariant. -/
theorem SupplyInv.mint {s s' : Store} {now a : Nat} {amt : Int} {m : Addr}
    {ta' : TokenizedAsset} (hInv : SupplyInv s a)
    (h : mint_tokens s now a amt m = (.ok ta', s')) : SupplyInv s' a := by
  obtain ⟨ta, L, hta, hL, hnd, hdom, hnn, hsum1, hsum2⟩ := hInv
  obtain ⟨ta0, own, hta0, htk, hown, hpos, hta', hA, hH, hLst, -, -⟩ :=
    mint_tokens_ok h
  obtain rfl : ta0 = ta := Option.some.inj (hta0.symm.trans hta)
  have hm : m ∈ L := (hdom m).mp (by simp [hown])
  have hbm : balOf s.tokenHolder a m = own.balance := by simp [balOf, hown]
  refine ⟨ta', L, by rw [hA, upd_same], by rw [hLst, hL], hnd, ?_, ?_, ?_, ?_⟩
  · intro x
    rw [hH]
    by_cases hx : x = m
    · subst hx; simp [upd_same, hm]
    · rw [upd_ne _ _ (by simp [hx])]; exact hdom x
  · intro x r hr
    rw [hH] at hr
    by_cases hx : x = m
    · subst hx
      rw [upd_same] at hr
      cases hr
      have := hnn x own hown
      simp only [credit]
      omega
    · rw [upd_ne _ _ (by simp [hx])] at hr
      exact hnn x r hr
  · rw [hH, sumBal_upd_mem _ _ _ hnd hm, hbm]
    simp only [credit, hta']
    omega
  · rw [hH, sumBal_upd_mem _ _ _ hnd hm, hbm]
    simp only [credit, hta']
    omega

/-- A successful `burn_tokens` preserves the invariant. -/
theorem SupplyInv.burn {s s' : Store} {now a : Nat} {amt : Int} {b : Addr}
    {ta' : TokenizedAsset} (hInv : SupplyInv s a)
    (h : burn_tokens s now a amt b = (.ok ta', s')) : SupplyInv s' a := by
  obtain ⟨ta, L, hta, hL, hnd, hdom, hnn, hsum1, hsum2⟩ := hInv
  obtain ⟨ta0, own, hta0, htk, hown, hpos, hle, hta', hA, hH, hLst, -, -⟩ :=
    burn_tokens_ok h
  obtain rfl : ta0 = ta := Option.some.inj (hta0.symm.trans hta)
  have hm : b ∈ L := (hdom b).mp (by simp [hown])
  have hbm : balOf s.tokenHolder a b = own.balance := by simp [balOf, hown]
  refine ⟨ta', L, by rw [hA, upd_same], by rw [hLst, hL], hnd, ?_, ?_, ?_, ?_⟩
  · intro x
    rw [hH]
    by_cases hx : x = b
    · subst hx; simp [upd_same, hm]
    · rw [upd_ne _ _ (by simp [hx])]; exact hdom x
  · intro x r hr
    rw [hH] at hr
    by_cases hx : x = b
    · subst hx
      rw [upd_same] at hr
      cases hr
      simp only [debit]
      omega
    · rw [upd_ne _ _ (by simp [hx])] at hr
      exact hnn x r hr
  · rw [hH, sumBal_upd_mem _ _ _ hnd hm, hbm]
    simp only [debit, hta']
    omega
  · rw [hH, sumBal_upd_mem _ _ _ hnd hm, hbm]
    simp only [debit, hta']
    omega

/-- A successful `transfer_tokens` between two distinct addresses preserves
the invariant.  (A self-transfer does not: see the counterexample for the
supply-conservation claim.) -/
theorem SupplyInv.transfer {s s' : Store} {now a : Nat} {f t : Addr}
    {amt : Int} {u : Unit} (hne : f ≠ t) (hInv : SupplyInv s a)
    (h : transfer_tokens s now a f t amt = (.ok u, s')) : SupplyInv s' a := by
  obtain ⟨ta, L, hta, hL, hnd, hdom, hnn, hsum1, hsum2⟩ := hInv
  obtain ⟨ta0, fo, L0, hta0, hfo, hL0, hpos, hle, -, hA, -, -, hH, hLst⟩ :=
    transfer_tokens_ok h
  obtain rfl : ta = ta0 := Option.some.inj (hta.symm.trans hta0)
  obtain rfl : L = L0 := Option.some.inj (hL.symm.trans hL0)
  have hf : f ∈ L := (hdom f).mp (by simp [hfo])
  have hbf : balOf s.tokenHolder a f = fo.balance := by simp [balOf, hfo]
  have htf : t ≠ f := fun he => hne he.symm
  by_cases hmem : t ∈ L
  · have hsome : (s.tokenHolder (a, t)).isSome := (hdom t).mpr hmem
    obtain ⟨tr, htr⟩ := Option.isSome_iff_exists.mp hsome
    have hbase : (s.tokenHolder (a, t)).getD (freshOwnership t now) = tr := by
      simp [htr]
    have hbt : balOf s.tokenHolder a t = tr.balance := by simp [balOf, htr]
    have hbt' : balOf (upd s.tokenHolder (a, f)
        (some (debit fo ta.total_supply amt))) a t = tr.balance := by
      rw [balOf_upd_ne _ _ _ htf, hbt]
    refine ⟨ta, L, by rw [hA]; exact hta, by rw [hLst, if_pos hmem]; exact hL,
      hnd, ?_, ?_, ?_, ?_⟩
    · intro x
      rw [hH, hbase]
      by_cases hx : x = t
      · subst hx; simp [upd_same, hmem]
      · rw [upd_ne _ _ (by simp [hx])]
        by_cases hxf : x = f
        · subst hxf; simp [upd_same, hf]
        · rw [upd_ne _ _ (by simp [hxf])]; exact hdom x
    · intro x r hr
      rw [hH, hbase] at hr
      by_cases hx : x = t
      · subst hx
        rw [upd_same] at hr
        cases hr
        have := hnn x tr htr
        simp only [credit]
        omega
      · rw [upd_ne _ _ (by simp [hx])] at hr
        by_cases hxf : x = f
        · subst hxf
          rw [upd_same] at hr
          cases hr
          simp only [debit]
          omega
        · rw [upd_ne _ _ (by simp [hxf])] at hr
          exact hnn x r hr
    · rw [hH, hbase, sumBal_upd_mem _ _ _ hnd hmem, hbt',
        sumBal_upd_mem _ _ _ hnd hf, hbf]
      simp only [credit, debit]
      omega
    · rw [hH, hbase, sumBal_upd_mem _ _ _ hnd hmem, hbt',
        sumBal_upd_mem _ _ _ hnd hf, hbf]
      simp only [credit, debit]
      omega
  · have hnone : s.tokenHolder (a, t) = none :=
      Option.not_isSome_iff_eq_none.mp (fun hs => hmem ((hdom t).mp hs))
    have hbase : (s.tokenHolder (a, t)).getD (freshOwnership t now) =
        freshOwnership t now := by simp [hnone]
    refine ⟨ta, L ++ [t], by rw [hA]; exact hta,
      by rw [hLst, if_neg hmem, upd_same], ?_, ?_, ?_, ?_, ?_⟩
    · simp [List.nodup_append, hnd, hmem]
    · intro x
      rw [hH, hbase]
      by_cases hx : x = t
      · subst hx; simp [upd_same]
      · rw [upd_ne _ _ (by simp [hx])]
        by_cases hxf : x = f
        · subst hxf; simp [upd_same, hf]
        · rw [upd_ne _ _ (by simp [hxf])]
          simp only [List.mem_append, List.mem_singleton, hx, or_false]
          exact hdom x
    · intro x r hr
      rw [hH, hbase] at hr
      by_cases hx : x = t
      · subst hx
        rw [upd_same] at hr
        cases hr
        simp only [credit, freshOwnership]
        omega
      · rw [upd_ne _ _ (by simp [hx])] at hr
        by_cases hxf : x = f
        · subst hxf
          rw [upd_same] at hr
          cases hr
          simp only [debit]
          omega
        · rw [upd_ne _ _ (by simp [hxf])] at hr
          exact hnn x r hr
    · rw [hH, hbase, sumBal_append]
      rw [sumBal_upd_not_mem _ _ _ hmem, sumBal_upd_mem _ _ _ hnd hf, hbf]
      have hsing : sumBal (upd (upd s.tokenHolder (a, f)
          (some (debit fo ta.total_supply amt))) (a, t)
          (some (credit (freshOwnership t now) ta.total_supply amt))) a [t] =
          (credit (freshOwnership t now) ta.total_supply amt).balance := by
        simp [sumBal, balOf_upd_same]
      rw [hsing]
      simp only [credit, debit, freshOwnership]
      omega
    · rw [hH, hbase, sumBal_append]
      rw [sumBal_upd_not_mem _ _ _ hmem, sumBal_upd_mem _ _ _ hnd hf, hbf]
      have hsing : sumBal (upd (upd s.tokenHolder (a, f)
          (some (debit fo ta.total_supply amt))) (a, t)
          (some (credit (freshOwnership t now) ta.total_supply amt))) a [t] =
          (credit (freshOwnership t now) ta.total_supply amt).balance := by
        simp [sumBal, balOf_upd_same]
      rw [hsing]
      simp only [credit, debit, freshOwnership]
      omega

/-!
## Forward evaluation lemmas
-/

/-- `transfer_tokens` succeeds when the asset is tokenized, the sender is
not actively locked, the sender's record covers the amount, the amount is
positive, and the holders list is present. -/
theorem transfer_tokens_run {s : Store} {now a : Nat} {f t : Addr}
    {amt : Int} {ta : TokenizedAsset} {fo : OwnershipRecord} {L : List Addr}
    (hta : s.tokenizedAsset a = some ta)
    (hlock : is_tokens_locked s now a f = false)
    (hfo : s.tokenHolder (a, f) = some fo)
    (hpos : 0 < amt) (hle : amt ≤ fo.balance)
    (hL : s.tokenHoldersList a = some L) :
    (transfer_tokens s now a f t amt).1 = .ok () := by
  unfold is_tokens_locked at hlock
  unfold transfer_tokens
  rcases hlk : s.tokenLockedUntil (a, f) with _ | lt <;> rw [hlk] at hlock
  · simp [hta, hlk, hfo, hL, not_le.mpr hpos, not_lt.mpr hle]
  · simp only [decide_eq_false_iff_not] at hlock
    simp [hta, hlk, hfo, hL, not_le.mpr hpos, not_lt.mpr hle, hlock]

/-- `burn_tokens` succeeds for the tokenizer with sufficient balance, and
returns the asset record with both supply fields decreased. -/
theorem burn_tokens_run {s : Store} {now a : Nat} {amt : Int} {b : Addr}
    {ta : TokenizedAsset} {own : OwnershipRecord}
    (hta : s.tokenizedAsset a = some ta) (htk : ta.tokenizer = b)
    (hown : s.tokenHolder (a, b) = some own)
    (hpos : 0 < amt) (hle : amt ≤ own.balance) :
    (burn_tokens s now a amt b).1 =
      .ok { ta with total_supply := ta.total_supply - amt,
                    tokens_in_circulation := ta.tokens_in_circulation - amt } := by
  unfold burn_tokens
  simp [hta, htk, hown, not_le.mpr hpos, not_lt.mpr hle]

/-- `lock_tokens` by the tokenizer of a tokenized asset succeeds and writes
exactly the lock key. -/
theorem lock_tokens_run {s : Store} {a : Nat} {hld : Addr} {t : Nat}
    {c : Addr} {ta : TokenizedAsset}
    (hta : s.tokenizedAsset a = some ta) (htk : ta.tokenizer = c) :
    lock_tokens s a hld t c =
      (.ok (), { s with tokenLockedUntil := upd s.tokenLockedUntil (a, hld) (some t) }) := by
  unfold lock_tokens
  simp [hta, htk]

/-- `SupplyInv` is preserved by any successful sequence of mint, burn and
distinct-party transfer operations. -/
theorem SupplyInv.runOps_preserved {a : Nat} :
    ∀ (ops : List (Nat × TokenOp)) (s s' : Store), SupplyInv s a →
      (∀ p ∈ ops, TokenOp.distinctParties p.2) →
      runOps a s ops = some s' → SupplyInv s' a := by
  intro ops
  induction ops with
  | nil =>
    intro s s' hInv _ hrun
    simp only [runOps, Option.some.injEq] at hrun
    exact hrun ▸ hInv
  | cons p rest ih =>
    obtain ⟨now, op⟩ := p
    intro s s' hInv hdp hrun
    simp only [runOps] at hrun
    rcases happ : TokenOp.apply s now a op with ⟨r, s₁⟩
    rw [happ] at hrun
    rcases r with e | v
    · simp at hrun
    · have hInv₁ : SupplyInv s₁ a := by
        rcases op with ⟨amt, m⟩ | ⟨amt, b⟩ | ⟨f, t, amt⟩
        · simp only [TokenOp.apply] at happ
          rcases hm : mint_tokens s now a amt m with ⟨r0, s0⟩
          rw [hm] at happ
          rcases r0 with e0 | ta0
          · simp [Except.map] at happ
          · simp only [Prod.mk.injEq] at happ
            exact SupplyInv.mint hInv (happ.2 ▸ hm)
        · simp only [TokenOp.apply] at happ
          rcases hb : burn_tokens s now a amt b with ⟨r0, s0⟩
          rw [hb] at happ
          rcases r0 with e0 | ta0
          · simp [Except.map] at happ
          · simp only [Prod.mk.injEq] at happ
            exact SupplyInv.burn hInv (happ.2 ▸ hb)
        · have hne : f ≠ t := hdp (now, .transfer f t amt) (List.mem_cons_self _ _)
          exact SupplyInv.transfer hne hInv happ
      exact ih s₁ s' hInv₁ (fun q hq => hdp q (List.mem_cons_of_mem _ hq)) hrun

/-!
## Claims
-/

/-- C10: `get_token_balance` never returns an error: for every store, asset
id and holder it returns the stored record's balance, and 0 when no record
exists (in particular when the asset was never tokenized). -/
theorem get_token_balance_total :
    ∀ (s : Store) (a : Nat) (hld : Addr),
      get_token_balance s a hld =
        .ok (((s.tokenHolder (a, hld)).map OwnershipRecord.balance).getD 0) := by
  intro s a hld
  unfold get_token_balance
  cases h : s.tokenHolder (a, hld) <;> simp [h]

/-- C5 (amended): after a successful `tokenize_asset` on an asset id, a
second `tokenize_asset` on the same id with a positive `total_supply` fails
with `AssetAlreadyTokenized` (and leaves the store unchanged) for all values
of the remaining arguments; a second call with `total_supply ≤ 0` instead
fails with `InvalidTokenSupply`, because the supply check precedes the
already-tokenized check. -/
theorem second_tokenize_fails :
    ∀ (s0 s : Store) (now0 now a : Nat) (sym0 sym : String) (sup0 sup : Int)
      (dec0 dec : Nat) (thr0 thr : Int) (tk0 tk : Addr)
      (m0 m : TokenMetadata) (ta0 : TokenizedAsset),
      tokenize_asset s0 now0 a sym0 sup0 dec0 thr0 tk0 m0 = (.ok ta0, s) →
      0 < sup →
      tokenize_asset s now a sym sup dec thr tk m =
        (.error .AssetAlreadyTokenized, s) := by
  intro s0 s now0 now a sym0 sym sup0 sup dec0 dec thr0 thr tk0 tk m0 m ta0 h0 hsup
  obtain ⟨-, -, -, hA, -, -, -, -⟩ := tokenize_asset_ok h0
  have hsome : s.tokenizedAsset a = some ta0 := by rw [hA, upd_same]
  unfold tokenize_asset
  simp [hsome, not_le.mpr hsup]

/-- C5 witness: asset 1 is tokenized in `sTok`; retokenizing it with supply
5 fails `AssetAlreadyTokenized`. -/
theorem second_tokenize_fails_witness :
    tokenize_asset sTok 0 1 "U" 5 6 1 8 metaEx =
      (.error .AssetAlreadyTokenized, sTok) :=
  second_tokenize_fails Store.empty sTok 0 0 1 "TOK" "U" 100 5 6 6 1 1 7 8
    metaEx metaEx taEx rfl (by decide)

/-- C5 counterexample: the claim quantifies over all argument values, but a
second `tokenize_asset` with `total_supply = 0` fails `InvalidTokenSupply`,
not `AssetAlreadyTokenized`. -/
theorem second_tokenize_fails_cex :
    (tokenize_asset Store.empty 0 1 "TOK" 100 6 1 7 metaEx).1 = .ok taEx ∧
    (tokenize_asset sTok 0 1 "U" 0 6 1 8 metaEx).1 = .error .InvalidTokenSupply ∧
    Error.InvalidTokenSupply ≠ Error.AssetAlreadyTokenized :=
  ⟨rfl, rfl, by decide⟩

/-- C6 (amended): for a tokenized asset, `mint_tokens` or `burn_tokens`
called with a positive amount by any address other than the tokenizer fails
with `Unauthorized` and leaves the store unchanged; with amount ≤ 0 the
calls instead fail `InvalidTokenSupply` (still without touching the store),
because the amount check precedes the authorization check. -/
theorem unauthorized_mint_burn :
    (∀ (s : Store) (now a : Nat) (amt : Int) (c : Addr) (ta : TokenizedAsset),
        s.tokenizedAsset a = some ta → ta.tokenizer ≠ c → 0 < amt →
        mint_tokens s now a amt c = (.error .Unauthorized, s)) ∧
    (∀ (s : Store) (now a : Nat) (amt : Int) (c : Addr) (ta : TokenizedAsset),
        s.tokenizedAsset a = some ta → ta.tokenizer ≠ c → 0 < amt →
        burn_tokens s now a amt c = (.error .Unauthorized, s)) := by
  constructor
  · intro s now a amt c ta hta hne hpos
    unfold mint_tokens
    simp [hta, hne, not_le.mpr hpos]
  · intro s now a amt c ta hta hne hpos
    unfold burn_tokens
    simp [hta, hne, not_le.mpr hpos]

/-- C6 witness: address 8 is not the tokenizer of asset 1 in `sTok`; minting
or burning 5 by 8 fails `Unauthorized` with the store unchanged. -/
theorem unauthorized_mint_burn_witness :
    mint_tokens sTok 0 1 5 8 = (.error .Unauthorized, sTok) ∧
    burn_tokens sTok 0 1 5 8 = (.error .Unauthorized, sTok) :=
  ⟨unauthorized_mint_burn.1 sTok 0 1 5 8 taEx rfl (by decide) (by decide),
   unauthorized_mint_burn.2 sTok 0 1 5 8 taEx rfl (by decide) (by decide)⟩

/-- C6 counterexample: with amount 0 and a non-tokenizer caller, mint and
burn fail `InvalidTokenSupply`, not `Unauthorized` as the claim states. -/
theorem unauthorized_mint_burn_cex :
    sTok.tokenizedAsset 1 = some taEx ∧ taEx.tokenizer ≠ 8 ∧
    (mint_tokens sTok 0 1 0 8).1 = .error .InvalidTokenSupply ∧
    (burn_tokens sTok 0 1 0 8).1 = .error .InvalidTokenSupply ∧
    Error.InvalidTokenSupply ≠ Error.Unauthorized :=
  ⟨rfl, by decide, rfl, rfl, by decide⟩

/-- C8: on a tokenized asset, `unlock_tokens` of a holder with no lock
record succeeds and leaves the store unchanged, and `unlock_tokens` is
idempotent: a second call returns success and the same store as the
first. -/
theorem unlock_noop_idempotent :
    (∀ (s : Store) (a : Nat) (hld : Addr) (ta : TokenizedAsset),
        s.tokenizedAsset a = some ta → s.tokenLockedUntil (a, hld) = none →
        unlock_tokens s a hld = (.ok (), s)) ∧
    (∀ (s : Store) (a : Nat) (hld : Addr) (ta : TokenizedAsset),
        s.tokenizedAsset a = some ta →
        (unlock_tokens (unlock_tokens s a hld).2 a hld).1 = .ok () ∧
        (unlock_tokens (unlock_tokens s a hld).2 a hld).2 =
          (unlock_tokens s a hld).2) := by
  have hbase : ∀ (s : Store) (a : Nat) (hld : Addr) (ta : TokenizedAsset),
      s.tokenizedAsset a = some ta → s.tokenLockedUntil (a, hld) = none →
      unlock_tokens s a hld = (.ok (), s) := by
    intro s a hld ta hta hlk
    unfold unlock_tokens
    simp [hta, hlk]
  refine ⟨hbase, fun s a hld ta hta => ?_⟩
  rcases hlk : s.tokenLockedUntil (a, hld) with _ | lt
  · simp [hbase s a hld ta hta hlk]
  · have h1 : unlock_tokens s a hld =
        (.ok (), { s with tokenLockedUntil := upd s.tokenLockedUntil (a, hld) none }) := by
      unfold unlock_tokens
      simp [hta, hlk]
    have h2 := hbase { s with tokenLockedUntil := upd s.tokenLockedUntil (a, hld) none }
      a hld ta hta (upd_same _ _ _)
    simp [h1, h2]

/-- C8 witness: holder 9 has no lock in `sTok`, so unlocking it is a no-op;
unlocking holder 7 of `sLock` twice gives the same store as once. -/
theorem unlock_noop_idempotent_witness :
    unlock_tokens sTok 1 9 = (.ok (), sTok) ∧
    (unlock_tokens (unlock_tokens sLock 1 7).2 1 7).2 =
      (unlock_tokens sLock 1 7).2 :=
  ⟨unlock_noop_idempotent.1 sTok 1 9 taEx rfl rfl,
   (unlock_noop_idempotent.2 sLock 1 7 taEx rfl).2⟩

/-- C2: a self-transfer (`from = to`) on a tokenized asset, with no active
lock on the holder and `0 < amount ≤ balance`, succeeds, and afterwards the
holder's stored balance is the previous balance plus the amount — the
receiver-side write overwrites the sender-side debit at the same key —
while the asset record (and so `total_supply`) is unchanged. -/
theorem self_transfer_credits :
    ∀ (s : Store) (now a : Nat) (hld : Addr) (amt : Int)
      (ta : TokenizedAsset) (own : OwnershipRecord) (L : List Addr),
      s.tokenizedAsset a = some ta →
      s.tokenHoldersList a = some L →
      is_tokens_locked s now a hld = false →
      s.tokenHolder (a, hld) = some own →
      0 < amt → amt ≤ own.balance →
      (transfer_tokens s now a hld hld amt).1 = .ok () ∧
      ((transfer_tokens s now a hld hld amt).2).tokenHolder (a, hld) =
        some (credit own ta.total_supply amt) ∧
      (credit own ta.total_supply amt).balance = own.balance + amt ∧
      ((transfer_tokens s now a hld hld amt).2).tokenizedAsset a = some ta := by
  intro s now a hld amt ta own L hta hL hlock hown hpos hle
  have h1 := @transfer_tokens_run s now a hld hld amt ta own L hta hlock hown hpos hle hL
  have hp := (@Prod.mk.eta _ _ (transfer_tokens s now a hld hld amt)).symm
  rw [h1] at hp
  obtain ⟨ta0, fo0, L0, hta0, hfo0, -, -, -, -, hA, -, -, hH, -⟩ :=
    transfer_tokens_ok hp
  obtain rfl : ta = ta0 := Option.some.inj (hta.symm.trans hta0)
  obtain rfl : own = fo0 := Option.some.inj (hown.symm.trans hfo0)
  refine ⟨h1, ?_, by simp [credit], by rw [hA]; exact hta⟩
  rw [hH, upd_same]
  simp [hown]

/-- C2 witness: self-transfer of 10 by holder 7 on `sTok` succeeds and
leaves 7 with balance 110 while the asset record still says supply 100. -/
theorem self_transfer_credits_witness :
    (transfer_tokens sTok 0 1 7 7 10).1 = .ok () ∧
    ((transfer_tokens sTok 0 1 7 7 10).2).tokenHolder (1, 7) =
      some (credit ownEx taEx.total_supply 10) ∧
    (credit ownEx taEx.total_supply 10).balance = ownEx.balance + 10 ∧
    ((transfer_tokens sTok 0 1 7 7 10).2).tokenizedAsset 1 = some taEx :=
  self_transfer_credits sTok 0 1 7 10 taEx ownEx [7] rfl rfl rfl rfl
    (by decide) (by decide)

/-- C4 (amended): after a successful `burn_tokens`, the burner's record has
balance decreased by the amount and `voting_power` and
`dividend_entitlement` equal to the new balance, but `ownership_percentage`
equals `(new balance * 10000) tdiv (old total_supply)` — the supply before
the burn — because the source recomputes the percentage before decrementing
the supply; mint, by contrast, divides by the new supply. -/
theorem burn_updates_record :
    ∀ (s : Store) (now a : Nat) (amt : Int) (b : Addr)
      (ta : TokenizedAsset) (own : OwnershipRecord),
      s.tokenizedAsset a = some ta → ta.tokenizer = b →
      s.tokenHolder (a, b) = some own → 0 < amt → amt ≤ own.balance →
      (burn_tokens s now a amt b).1 =
        .ok { ta with total_supply := ta.total_supply - amt,
                      tokens_in_circulation := ta.tokens_in_circulation - amt } ∧
      ((burn_tokens s now a amt b).2).tokenizedAsset a =
        some { ta with total_supply := ta.total_supply - amt,
                       tokens_in_circulation := ta.tokens_in_circulation - amt } ∧
      ((burn_tokens s now a amt b).2).tokenHolder (a, b) =
        some (debit own ta.total_supply amt) ∧
      (debit own ta.total_supply amt).balance = own.balance - amt ∧
      (debit own ta.total_supply amt).voting_power = own.balance - amt ∧
      (debit own ta.total_supply amt).dividend_entitlement = own.balance - amt ∧
      (debit own ta.total_supply amt).ownership_percentage =
        ((own.balance - amt) * 10000).tdiv ta.total_supply := by
  intro s now a amt b ta own hta htk hown hpos hle
  have h1 := @burn_tokens_run s now a amt b ta own hta htk hown hpos hle
  have hp := (@Prod.mk.eta _ _ (burn_tokens s now a amt b)).symm
  rw [h1] at hp
  obtain ⟨ta0, own0, hta0, -, hown0, -, -, -, hA, hH, -, -, -⟩ :=
    burn_tokens_ok hp
  obtain rfl : ta = ta0 := Option.some.inj (hta.symm.trans hta0)
  obtain rfl : own = own0 := Option.some.inj (hown.symm.trans hown0)
  exact ⟨h1, by rw [hA, upd_same], by rw [hH, upd_same], by simp [debit],
    by simp [debit], by simp [debit], by simp [debit]⟩

/-- C4 witness: burning 50 of 100 as tokenizer 7 on `sTok` leaves supply 50
and percentage `(50 * 10000) tdiv 100 = 5000`. -/
theorem burn_updates_record_witness :
    (burn_tokens sTok 0 1 50 7).1 =
      .ok { taEx with total_supply := 50, tokens_in_circulation := 50 } ∧
    ((burn_tokens sTok 0 1 50 7).2).tokenHolder (1, 7) =
      some (debit ownEx taEx.total_supply 50) ∧
    (debit ownEx taEx.total_supply 50).ownership_percentage =
      (((100 : Int) - 50) * 10000).tdiv 100 := by
  obtain ⟨h1, -, h3, -, -, -, h7⟩ :=
    burn_updates_record sTok 0 1 50 7 taEx ownEx rfl rfl rfl
      (by decide) (by decide)
  exact ⟨h1, h3, h7⟩

/-- C4 counterexample: after burning 50 of 100, the stored percentage is
5000 (divisor: old supply 100), not the `(new balance * 10000) / new
total_supply = 10000` the claim states. -/
theorem burn_updates_record_cex :
    (burn_tokens sTok 0 1 50 7).1 =
      .ok { taEx with total_supply := 50, tokens_in_circulation := 50 } ∧
    (((burn_tokens sTok 0 1 50 7).2).tokenHolder (1, 7)).map
      OwnershipRecord.ownership_percentage = some 5000 ∧
    (((50 : Int) * 10000).tdiv 50 = 10000) ∧ ((5000 : Int) ≠ 10000) :=
  ⟨rfl, rfl, by decide, by decide⟩

/-- C7: after `lock_tokens(asset, H, t)` succeeds, a positive-amount
transfer debiting `H` at any ledger time strictly before `t` fails
`TokensAreLocked` with the store unchanged; at any time `≥ t` an
otherwise-valid transfer (tokenized asset with its holders list, sender
record with sufficient balance) succeeds; and `is_tokens_locked` is true
exactly when a lock record exists with timestamp strictly greater than the
current time. -/
theorem lock_enforcement :
    (∀ (s s' : Store) (now a : Nat) (hld dst : Addr) (amt : Int) (t : Nat)
        (c : Addr) (u : Unit),
        lock_tokens s a hld t c = (.ok u, s') → now < t → 0 < amt →
        transfer_tokens s' now a hld dst amt = (.error .TokensAreLocked, s')) ∧
    (∀ (s s' : Store) (now a : Nat) (hld dst : Addr) (amt : Int) (t : Nat)
        (c : Addr) (u : Unit) (fo : OwnershipRecord) (L : List Addr),
        lock_tokens s a hld t c = (.ok u, s') → t ≤ now →
        s.tokenHolder (a, hld) = some fo → 0 < amt → amt ≤ fo.balance →
        s.tokenHoldersList a = some L →
        (transfer_tokens s' now a hld dst amt).1 = .ok ()) ∧
    (∀ (s : Store) (now a : Nat) (hld : Addr),
        is_tokens_locked s now a hld = true ↔
        ∃ lt, s.tokenLockedUntil (a, hld) = some lt ∧ now < lt) := by
  refine ⟨?_, ?_, ?_⟩
  · intro s s' now a hld dst amt t c u hlk hnow hpos
    obtain ⟨ta, hta, htk, rfl⟩ := lock_tokens_ok hlk
    unfold transfer_tokens
    simp [hta, upd_same, hnow, not_le.mpr hpos]
  · intro s s' now a hld dst amt t c u fo L hlk hT hfo hpos hle hL
    obtain ⟨ta, hta, htk, rfl⟩ := lock_tokens_ok hlk
    refine @transfer_tokens_run _ now a hld dst amt ta fo L hta ?_ hfo hpos hle hL
    unfold is_tokens_locked
    simp [upd_same, not_lt.mpr hT]
  · intro s now a hld
    unfold is_tokens_locked
    cases h : s.tokenLockedUntil (a, hld) <;> simp [h]

/-- C7 witness: after locking holder 7 of asset 1 until time 10, a transfer
of 20 at time 5 fails `TokensAreLocked` with the store unchanged, and the
same transfer at time 10 succeeds. -/
theorem lock_enforcement_witness :
    transfer_tokens sLock 5 1 7 8 20 = (.error .TokensAreLocked, sLock) ∧
    (transfer_tokens sLock 10 1 7 8 20).1 = .ok () :=
  ⟨lock_enforcement.1 sTok sLock 5 1 7 8 20 10 7 () rfl (by decide) (by decide),
   lock_enforcement.2.1 sTok sLock 10 1 7 8 20 10 7 () ownEx [7] rfl
     (by decide) rfl (by decide) (by decide) rfl⟩

/-- C9: two successful transfers to an address not previously in the
holders list leave exactly one entry for it in `get_token_holders`; a
transfer keeps the list duplicate-free and only ever appends to it; and no
other ledger operation touches the list. -/
theorem holder_registry :
    (∀ (s s1 s2 : Store) (now1 now2 a : Nat) (f1 f2 t : Addr)
        (amt1 amt2 : Int) (u1 u2 : Unit) (L : List Addr),
        s.tokenHoldersList a = some L → t ∉ L →
        transfer_tokens s now1 a f1 t amt1 = (.ok u1, s1) →
        transfer_tokens s1 now2 a f2 t amt2 = (.ok u2, s2) →
        get_token_holders s2 a = .ok (L ++ [t]) ∧ (L ++ [t]).count t = 1) ∧
    (∀ (s s' : Store) (now a : Nat) (f t : Addr) (amt : Int)
        (r : Except Error Unit) (L : List Addr),
        transfer_tokens s now a f t amt = (r, s') →
        s.tokenHoldersList a = some L → L.Nodup →
        ∃ L' ext, s'.tokenHoldersList a = some L' ∧ L'.Nodup ∧ L' = L ++ ext) ∧
    (∀ (s s' : Store) (now a : Nat) (amt : Int) (m : Addr)
        (r : Except Error TokenizedAsset), mint_tokens s now a amt m = (r, s') →
        s'.tokenHoldersList = s.tokenHoldersList) ∧
    (∀ (s s' : Store) (now a : Nat) (amt : Int) (b : Addr)
        (r : Except Error TokenizedAsset), burn_tokens s now a amt b = (r, s') →
        s'.tokenHoldersList = s.tokenHoldersList) ∧
    (∀ (s s' : Store) (a : Nat) (hld : Addr) (t : Nat) (c : Addr)
        (r : Except Error Unit), lock_tokens s a hld t c = (r, s') →
        s'.tokenHoldersList = s.tokenHoldersList) ∧
    (∀ (s s' : Store) (a : Nat) (hld : Addr) (r : Except Error Unit),
        unlock_tokens s a hld = (r, s') →
        s'.tokenHoldersList = s.tokenHoldersList) ∧
    (∀ (s s' : Store) (a : Nat) (v : Int) (r : Except Error Unit),
        update_valuation s a v = (r, s') →
        s'.tokenHoldersList = s.tokenHoldersList) := by
  refine ⟨?_, ?_, ?_, ?_, ?_, ?_, ?_⟩
  · intro s s1 s2 now1 now2 a f1 f2 t amt1 amt2 u1 u2 L hL hmem h1 h2
    obtain ⟨-, -, L1, -, -, hL1, -, -, -, -, -, -, -, hLst1⟩ :=
      transfer_tokens_ok h1
    obtain rfl : L = L1 := Option.some.inj (hL.symm.trans hL1)
    have hs1 : s1.tokenHoldersList a = some (L ++ [t]) := by
      rw [hLst1, if_neg hmem, upd_same]
    obtain ⟨-, -, L2, -, -, hL2, -, -, -, -, -, -, -, hLst2⟩ :=
      transfer_tokens_ok h2
    obtain rfl : L ++ [t] = L2 := Option.some.inj (hs1.symm.trans hL2)
    have hmem2 : t ∈ L ++ [t] := by simp
    have hs2 : s2.tokenHoldersList a = some (L ++ [t]) := by
      rw [hLst2, if_pos hmem2]
      exact hs1
    constructor
    · unfold get_token_holders
      rw [hs2]
    · simp [List.count_append, List.count_eq_zero.mpr hmem]
  · intro s s' now a f t amt r L h hL hnd
    rcases transfer_tokens_holdersList h with hsame | ⟨L0, hL0, hmem, hupd⟩
    · exact ⟨L, [], by rw [hsame]; exact hL, hnd, by simp⟩
    · obtain rfl : L = L0 := Option.some.inj (hL.symm.trans hL0)
      exact ⟨L ++ [t], [t], by rw [hupd, upd_same],
        by simp [List.nodup_append, hnd, hmem], rfl⟩
  · intro s s' now a amt m r h
    exact mint_tokens_holdersList h
  · intro s s' now a amt b r h
    exact burn_tokens_holdersList h
  · intro s s' a hld t c r h
    exact lock_tokens_holdersList h
  · intro s s' a hld r h
    exact unlock_tokens_holdersList h
  · intro s s' a v r h
    exact update_valuation_holdersList h

/-- C9 witness: transferring from 7 to the new address 8 twice on `sTok`
leaves exactly one entry for 8 in the holders list. -/
theorem holder_registry_witness :
    get_token_holders
      (transfer_tokens (transfer_tokens sTok 0 1 7 8 10).2 1 1 7 8 10).2 1 =
      .ok ([7] ++ [8]) ∧ ([7] ++ [8]).count 8 = 1 :=
  holder_registry.1 sTok _ _ 0 1 1 7 7 8 10 10 () () [7] rfl (by decide) rfl rfl

/-- C3 (amended): every failing ledger operation leaves the store exactly
as it was — unconditionally for `tokenize_asset`, `mint_tokens`,
`burn_tokens`, `lock_tokens`, `unlock_tokens` and `update_valuation`, and
for `transfer_tokens` provided the asset's holders list is present whenever
its asset record is (which `tokenize_asset` establishes and no operation
destroys); on stores violating that proviso, `transfer_tokens` can fail
`AssetNotTokenized` after writing both ownership records. -/
theorem error_leaves_store_unchanged :
    (∀ (s s' : Store) (now a : Nat) (sym : String) (sup : Int) (dec : Nat)
        (thr : Int) (tk : Addr) (m : TokenMetadata) (e : Error),
        tokenize_asset s now a sym sup dec thr tk m = (.error e, s') → s' = s) ∧
    (∀ (s s' : Store) (now a : Nat) (amt : Int) (m : Addr) (e : Error),
        mint_tokens s now a amt m = (.error e, s') → s' = s) ∧
    (∀ (s s' : Store) (now a : Nat) (amt : Int) (b : Addr) (e : Error),
        burn_tokens s now a amt b = (.error e, s') → s' = s) ∧
    (∀ (s s' : Store) (now a : Nat) (f t : Addr) (amt : Int) (e : Error),
        ((s.tokenizedAsset a).isSome → (s.tokenHoldersList a).isSome) →
        transfer_tokens s now a f t amt = (.error e, s') → s' = s) ∧
    (∀ (s s' : Store) (a : Nat) (hld : Addr) (t : Nat) (c : Addr) (e : Error),
        lock_tokens s a hld t c = (.error e, s') → s' = s) ∧
    (∀ (s s' : Store) (a : Nat) (hld : Addr) (e : Error),
        unlock_tokens s a hld = (.error e, s') → s' = s) ∧
    (∀ (s s' : Store) (a : Nat) (v : Int) (e : Error),
        update_valuation s a v = (.error e, s') → s' = s) := by
  refine ⟨?_, ?_, ?_, ?_, ?_, ?_, ?_⟩
  · intro s s' now a sym sup dec thr tk m e h
    exact tokenize_asset_error h
  · intro s s' now a amt m e h
    exact mint_tokens_error h
  · intro s s' now a amt b e h
    exact burn_tokens_error h
  · intro s s' now a f t amt e hwf h
    exact transfer_tokens_error hwf h
  · intro s s' a hld t c e h
    exact lock_tokens_error h
  · intro s s' a hld e h
    exact unlock_tokens_error h
  · intro s s' a v e h
    exact update_valuation_error h

/-- C3 witness: a failing mint and a failing transfer on the empty store
leave it unchanged. -/
theorem error_leaves_store_unchanged_witness :
    (mint_tokens Store.empty 0 1 5 7).2 = Store.empty ∧
    (transfer_tokens Store.empty 0 1 7 8 5).2 = Store.empty :=
  ⟨error_leaves_store_unchanged.2.1 Store.empty _ 0 1 5 7 .AssetNotTokenized rfl,
   error_leaves_store_unchanged.2.2.2.1 Store.empty _ 0 1 7 8 5
     .AssetNotTokenized (fun h => by simp [Store.empty] at h) rfl⟩

/-- C3 counterexample: on a store with an asset record and a sender record
but no holders list, `transfer_tokens` fails `AssetNotTokenized` yet has
already overwritten the sender's record, so the store differs from the
starting one. -/
theorem error_leaves_store_unchanged_cex :
    (transfer_tokens sNoList 0 1 7 8 10).1 = .error .AssetNotTokenized ∧
    ((transfer_tokens sNoList 0 1 7 8 10).2).tokenHolder (1, 7) ≠
      sNoList.tokenHolder (1, 7) :=
  ⟨rfl, by decide⟩

/-- C1 (amended): a successful `tokenize_asset` on an asset with no
pre-existing holder records establishes `SupplyInv` — the holders' balances
sum to both `tokens_in_circulation` and `total_supply` — and `SupplyInv` is
preserved by every successful sequence of `mint_tokens`, `burn_tokens` and
`transfer_tokens` operations in which no transfer has `from = to`; a
successful self-transfer breaks the invariant. -/
theorem supply_conservation :
    (∀ (s s' : Store) (now a : Nat) (sym : String) (sup : Int) (dec : Nat)
        (thr : Int) (tk : Addr) (m : TokenMetadata) (ta' : TokenizedAsset),
        (∀ h, s.tokenHolder (a, h) = none) →
        tokenize_asset s now a sym sup dec thr tk m = (.ok ta', s') →
        SupplyInv s' a) ∧
    (∀ (a : Nat) (ops : List (Nat × TokenOp)) (s s' : Store),
        SupplyInv s a → (∀ p ∈ ops, TokenOp.distinctParties p.2) →
        runOps a s ops = some s' → SupplyInv s' a) :=
  ⟨fun _ _ _ _ _ _ _ _ _ _ _ hfresh h => SupplyInv.of_tokenize hfresh h,
   fun _ ops _ _ hInv hdp hrun => SupplyInv.runOps_preserved ops _ _ hInv hdp hrun⟩

/-- C1 witness: tokenize asset 1 (supply 100 to holder 7), then transfer 30
from 7 to 8: the invariant holds in the resulting store. -/
theorem supply_conservation_witness :
    SupplyInv (transfer_tokens sTok 0 1 7 8 30).2 1 := by
  have h0 : SupplyInv sTok 1 :=
    supply_conservation.1 Store.empty sTok 0 1 "TOK" 100 6 1 7 metaEx taEx
      (fun _ => rfl) rfl
  refine supply_conservation.2 1 [(0, .transfer 7 8 30)] sTok _ h0 ?_ rfl
  intro p hp
  simp only [List.mem_singleton] at hp
  subst hp
  simp [TokenOp.distinctParties]

/-- C1 counterexample: a successful self-transfer of 10 by the sole holder
7 on `sTok` leaves the only holder with balance 110 while `total_supply`
is still 100, so the sum of all holders' balances no longer equals the
supply. -/
theorem supply_conservation_cex :
    (transfer_tokens sTok 0 1 7 7 10).1 = .ok () ∧
    ((transfer_tokens sTok 0 1 7 7 10).2).tokenHoldersList 1 = some [7] ∧
    sumBal ((transfer_tokens sTok 0 1 7 7 10).2).tokenHolder 1 [7] = 110 ∧
    (((transfer_tokens sTok 0 1 7 7 10).2).tokenizedAsset 1).map
      TokenizedAsset.total_supply = some 100 ∧
    ((110 : Int) ≠ 100) :=
  ⟨rfl, rfl, rfl, rfl, by decide⟩

end Assetsup
